import Mathlib

/-!
A shallow embedding of the `based-language` checker (`src/checker.rs`): the
toy-language operand and instruction grammar, the compiler, the variable
store, the fetch-decode-execute interpreter with its cost meter, the
PCG-128 pseudo-random generator, and the task harness.  Machine integers
are modelled as `Int` and `Nat` with explicit wrapping (`% 2 ^ 64`) where
the Rust code wraps; i64 arithmetic in `Add`/`Sub` follows the deployed
release-profile semantics (two's-complement wrapping).  The Rust
`HashMap<String, Variable>` is modelled as an association list whose
`insert` shadows earlier bindings; only `lookup` is observable.  The Rust
execution loop, which has no fuel, is modelled with an explicit fuel
parameter: `none` means the fuel ran out before the loop terminated.
-/

namespace Checker

/-- The value 2 ^ 64 - 1: `usize::MAX` on the 64-bit targets the checker runs on. -/
def USIZE_MAX : Nat := 2 ^ 64 - 1

/-- The `usize::saturating_add`. -/
def satAdd (a b : Nat) : Nat := min (a + b) USIZE_MAX

/-- Two's-complement wrapping of an integer into the i64 range,
the release-profile meaning of i64 `+` / `-` in the source. -/
def wrap64 (x : Int) : Int := (x + 2 ^ 63) % 2 ^ 64 - 2 ^ 63

/-- The Rust cast `as usize` applied to an i64 value: reinterpret the
two's-complement bits as an unsigned 64-bit number. -/
def i64ToUsize (x : Int) : Nat := (x % (2 ^ 64 : Int)).toNat

/-- The Rust cast `as i64` applied to a u64 value. -/
def toSigned64 (u : Nat) : Int :=
  if u < 2 ^ 63 then (u : Int) else (u : Int) - 2 ^ 64

/-- Arithmetic shift right on an i64 value (Rust `>>` on i64):
floor division by a power of two. -/
def asr (x : Int) (s : Nat) : Int := Int.fdiv x (2 ^ s)

/-- The `compress` (checker.rs line 57): tokens embedded in error messages are
truncated via a 33-character probe: if at most 32 characters, the token is
kept whole, otherwise its first 29 characters are kept and "..." appended. -/
def compress (s : String) : String :=
  let pre := s.toList.take (32 + 1)
  if pre.length ≤ 32 then String.mk pre
  else String.mk (pre.take (32 - 3)) ++ "..."

/-- The `Operand` (checker.rs line 5). -/
inductive Operand where
  | Constant (value : Int)
  | Variable (name : String)
  | ArrayConstIndex (name : String) (index : Nat)
  | ArrayVarIndex (name : String) (indexName : String)
deriving DecidableEq

/-- The `Instruction` (checker.rs line 13). -/
inductive Instruction where
  | Nop
  | Input (op : Operand)
  | Output (op : Operand)
  | Assign (dst src : Operand)
  | Add (dst src : Operand)
  | Sub (dst src : Operand)
  | Compare (dst src : Operand)
  | Jump (op : Operand)
  | Return
deriving DecidableEq

/-- The `Variable` (checker.rs line 26): a tagged runtime value. -/
inductive Variable where
  | Integer (value : Int)
  | Array (values : List Int)
deriving DecidableEq

/-- The `Verdict` (checker.rs line 44). -/
inductive Verdict where
  | Correct
  | WrongAnswer (message : String)
  | TimeLimitExceeded
  | RuntimeError (line : Nat) (message : String)
  | CompileError (line : Nat) (message : String)
  | Based
  | OtherError (message : String)
deriving DecidableEq

/-- The `HashMap<String, Variable>` environment, as an association list;
a fresh insert shadows any earlier binding of the same name. -/
def VarMap : Type := List (String × Variable)

instance : DecidableEq VarMap := by unfold VarMap; infer_instance

/-- The `HashMap::get`: the most recent binding of a name, if any. -/
def lookupVar : VarMap → String → Option Variable
  | [], _ => none
  | (k, v) :: rest, n => if k = n then some v else lookupVar rest n

/-- The `HashMap::insert`: bind (or rebind) a name. -/
def insertVar (n : String) (v : Variable) (m : VarMap) : VarMap := (n, v) :: m

/-- The `Program` (checker.rs line 32): instructions, parallel costs, and the
mutable execution state.  The source field `variables` is named `vars`
here because `variables` is a reserved word in Lean 4. -/
structure Program where
  instructions : List Instruction
  costs : List Nat
  vars : VarMap
  input : List Variable
  output : List Variable
  runtime : Nat
  pc : Nat
  returned : Bool
deriving DecidableEq

/-- The `Program::default()`: everything empty, counters zero. -/
def emptyProgram : Program :=
  { instructions := [], costs := [], vars := [], input := [],
    output := [], runtime := 0, pc := 0, returned := false }

/-- The `Program::get_int_mut` (checker.rs line 170) used as a read:
an integer variable's value, or the runtime error the source reports. -/
def get_int_mut (vars : VarMap) (pc : Nat) (name : String) : Except Verdict Int :=
  match lookupVar vars name with
  | some (.Integer v) => .ok v
  | some (.Array _) =>
      .error (.RuntimeError pc ("expected integer, found array " ++ compress name))
  | none => .error (.RuntimeError pc ("no such variable " ++ compress name))

/-- The `Program::get_arr_mut` (checker.rs line 198). -/
def get_arr_mut (vars : VarMap) (pc : Nat) (name : String) : Except Verdict (List Int) :=
  match lookupVar vars name with
  | some (.Array v) => .ok v
  | some (.Integer _) =>
      .error (.RuntimeError pc ("expected array, found integer " ++ compress name))
  | none => .error (.RuntimeError pc ("no such variable " ++ compress name))

/-- The `Program::get_value` (checker.rs line 211): evaluate an operand as a
read.  A variable array index is cast `as usize` before the bounds check. -/
def get_value (vars : VarMap) (pc : Nat) (op : Operand) : Except Verdict Int :=
  match op with
  | .Constant v => .ok v
  | .Variable v => get_int_mut vars pc v
  | .ArrayConstIndex a k =>
      match get_arr_mut vars pc a with
      | .error e => .error e
      | .ok arr =>
          match arr.get? k with
          | some v => .ok v
          | none =>
              .error (.RuntimeError pc ("index " ++ toString k ++ " out of bounds"))
  | .ArrayVarIndex a i =>
      match get_int_mut vars pc i with
      | .error e => .error e
      | .ok idx =>
          match get_arr_mut vars pc a with
          | .error e => .error e
          | .ok arr =>
              let k := i64ToUsize idx
              match arr.get? k with
              | some v => .ok v
              | none =>
                  .error (.RuntimeError pc ("index " ++ toString k ++ " out of bounds"))

/-- A place produced by `Program::get_reference_mut`: either an integer
variable or a cell of an array variable (the `&mut i64` of the source). -/
inductive Ref where
  | var (name : String)
  | idx (name : String) (index : Nat)
deriving DecidableEq

/-- The `Program::get_reference_mut` (checker.rs line 232): resolve an operand
to a writable place.  The bare-variable case auto-creates `Integer(0)` for
an unbound name (`get_int_mut_or_default`), so the environment may grow. -/
def get_reference_mut (vars : VarMap) (pc : Nat) (op : Operand) :
    Except Verdict (VarMap × Ref) :=
  match op with
  | .Constant v =>
      .error (.RuntimeError pc ("integer constant " ++ toString v ++ " is not &mut i64"))
  | .Variable v =>
      match lookupVar vars v with
      | some (.Integer _) => .ok (vars, .var v)
      | some (.Array _) =>
          .error (.RuntimeError pc ("expected integer, found array " ++ compress v))
      | none => .ok (insertVar v (.Integer 0) vars, .var v)
  | .ArrayConstIndex a k =>
      match get_arr_mut vars pc a with
      | .error e => .error e
      | .ok arr =>
          if k < arr.length then .ok (vars, .idx a k)
          else .error (.RuntimeError pc ("index " ++ toString k ++ " out of bounds"))
  | .ArrayVarIndex a i =>
      match get_int_mut vars pc i with
      | .error e => .error e
      | .ok idx =>
          match get_arr_mut vars pc a with
          | .error e => .error e
          | .ok arr =>
              let k := i64ToUsize idx
              if k < arr.length then .ok (vars, .idx a k)
              else .error (.RuntimeError pc ("index " ++ toString k ++ " out of bounds"))

/-- Dereference a place resolved by `get_reference_mut` (reading through
the `&mut i64`).  The defaults are unreachable for places that
`get_reference_mut` returns. -/
def read_ref (vars : VarMap) (r : Ref) : Int :=
  match r with
  | .var n =>
      match lookupVar vars n with
      | some (.Integer v) => v
      | _ => 0
  | .idx n k =>
      match lookupVar vars n with
      | some (.Array arr) => arr.getD k 0
      | _ => 0

/-- Assign through a place resolved by `get_reference_mut`. -/
def write_ref (vars : VarMap) (r : Ref) (v : Int) : VarMap :=
  match r with
  | .var n => insertVar n (.Integer v) vars
  | .idx n k =>
      match lookupVar vars n with
      | some (.Array arr) => insertVar n (.Array (arr.set k v)) vars
      | _ => vars

/-- The `Program::add_input` (checker.rs line 256): push onto the back of the
input queue. -/
def add_input (p : Program) (v : Variable) : Program :=
  { p with input := p.input ++ [v] }

/-- The `Program::execute_one` (checker.rs line 265): one fetch-decode-execute
step.  The cost of the fetched line is charged (saturating) before the
opcode acts; `pc` receives the tentative `next_pc` at the end of a
successful step.  The Rust compound assignments in `Add`/`Sub` (and the
simple assignment in `Assign`) evaluate their right operand before
resolving the left place, which is the order used here.  The Rust code
indexes `costs[cur_pc]` unchecked after the instruction fetch succeeded,
relying on the compiler invariant `costs.length == instructions.length`;
`getD` reproduces it for well-formed programs. -/
def execute_one (p : Program) : Except Verdict Program :=
  let cur_pc := p.pc
  match p.instructions.get? cur_pc with
  | none => .error (.RuntimeError cur_pc "that\x27s not even a line")
  | some inst =>
    let rt := satAdd p.runtime (p.costs.getD cur_pc 0)
    match inst with
    | .Nop => .ok { p with runtime := rt, pc := cur_pc + 1 }
    | .Input dst =>
        match dst with
        | .Variable v =>
            match p.input with
            | [] => .error (.RuntimeError cur_pc "you\x27re reading from nothing")
            | x :: rest =>
                .ok { p with runtime := rt, input := rest,
                             vars := insertVar v x p.vars, pc := cur_pc + 1 }
        | _ => .error (.RuntimeError cur_pc "input operand must be an identifier")
    | .Output src =>
        match src with
        | .Variable v =>
            match lookupVar p.vars v with
            | none => .error (.RuntimeError cur_pc "you\x27re printing nothing")
            | some value =>
                .ok { p with runtime := rt, output := p.output ++ [value],
                             pc := cur_pc + 1 }
        | _ =>
            match get_value p.vars cur_pc src with
            | .error e => .error e
            | .ok v =>
                .ok { p with runtime := rt, output := p.output ++ [.Integer v],
                             pc := cur_pc + 1 }
    | .Assign dst src =>
        match get_value p.vars cur_pc src with
        | .error e => .error e
        | .ok v =>
            match get_reference_mut p.vars cur_pc dst with
            | .error e => .error e
            | .ok (vars1, r) =>
                .ok { p with runtime := rt, vars := write_ref vars1 r v,
                             pc := cur_pc + 1 }
    | .Add dst src =>
        match get_value p.vars cur_pc src with
        | .error e => .error e
        | .ok v =>
            match get_reference_mut p.vars cur_pc dst with
            | .error e => .error e
            | .ok (vars1, r) =>
                .ok { p with runtime := rt,
                             vars := write_ref vars1 r (wrap64 (read_ref vars1 r + v)),
                             pc := cur_pc + 1 }
    | .Sub dst src =>
        match get_value p.vars cur_pc src with
        | .error e => .error e
        | .ok v =>
            match get_reference_mut p.vars cur_pc dst with
            | .error e => .error e
            | .ok (vars1, r) =>
                .ok { p with runtime := rt,
                             vars := write_ref vars1 r (wrap64 (read_ref vars1 r - v)),
                             pc := cur_pc + 1 }
    | .Compare dst src =>
        match get_value p.vars cur_pc dst with
        | .error e => .error e
        | .ok x =>
            match get_value p.vars cur_pc src with
            | .error e => .error e
            | .ok y =>
                .ok { p with runtime := rt,
                             pc := if x > y then cur_pc + 1 else cur_pc + 2 }
    | .Jump dst =>
        match dst with
        | .Constant line =>
            .ok { p with runtime := rt, pc := i64ToUsize (wrap64 (line - 1)) }
        | _ => .error (.RuntimeError cur_pc "simp operand must be a constant")
    | .Return => .ok { p with runtime := rt, returned := true, pc := cur_pc + 1 }

/-- The `Program::execute` (checker.rs line 338): loop while not `returned`,
checking the time budget before each step.  `fuel` bounds the number of
loop iterations of this model; `none` means it was exhausted first. -/
def execute : Nat → Nat → Program → Option (Except Verdict Program)
  | 0, _, _ => none
  | fuel + 1, time_limit, p =>
    if p.returned then some (.ok p)
    else if p.runtime > time_limit then some (.error .TimeLimitExceeded)
    else
      match execute_one p with
      | .error v => some (.error v)
      | .ok p1 => execute fuel time_limit p1

/-- Reachability by zero or more successful interpreter steps. -/
inductive Steps : Program → Program → Prop
  | refl (p : Program) : Steps p p
  | head {p q r : Program} : execute_one p = .ok q → Steps q r → Steps p r

/-- The `str::split_once` on a single separator character: the parts strictly
before and after the first occurrence, if any. -/
def splitOnce (c : Char) : List Char → Option (List Char × List Char)
  | [] => none
  | x :: xs =>
    if x = c then some ([], xs)
    else
      match splitOnce c xs with
      | none => none
      | some (a, b) => some (x :: a, b)

/-- The `parse_array_index` (checker.rs line 79): split on the first `[`, then
require the remainder to be `index ++ "]"` with nothing after the `]`. -/
def parse_array_index (s : List Char) : Option (List Char × List Char) :=
  match splitOnce '[' s with
  | none => none
  | some (part1, part23) =>
      match splitOnce ']' part23 with
      | none => none
      | some (part2, part3) => if part3 = [] then some (part1, part2) else none

/-- The `is_identifier` (checker.rs line 84): non-empty, leading ASCII letter
or underscore, remainder ASCII alphanumeric or underscore. -/
def is_identifier (s : List Char) : Bool :=
  match s with
  | [] => false
  | c :: rest => (c.isAlpha || c = '_') && rest.all (fun d => d.isAlphanum || d = '_')

/-- The numeric value of a non-empty all-digit character list, the core of
Rust's `from_str` for integers. -/
def digitsToNat : List Char → Option Nat
  | [] => none
  | cs =>
    if cs.all Char.isDigit then
      some (cs.foldl (fun acc c => acc * 10 + (c.toNat - 48)) 0)
    else none

/-- The `usize::from_str`: optional leading `+`, digits, value below 2 ^ 64
(the checker targets 64-bit `usize`). -/
def parse_usize (s : List Char) : Option Nat :=
  let body := match s with | '+' :: rest => rest | _ => s
  match digitsToNat body with
  | none => none
  | some n => if n < 2 ^ 64 then some n else none

/-- The `i64::from_str`: optional sign, digits, value in the i64 range. -/
def parse_i64 (s : List Char) : Option Int :=
  match s with
  | '-' :: rest =>
      match digitsToNat rest with
      | none => none
      | some n => if n ≤ 2 ^ 63 then some (-(n : Int)) else none
  | '+' :: rest =>
      match digitsToNat rest with
      | none => none
      | some n => if n < 2 ^ 63 then some (n : Int) else none
  | cs =>
      match digitsToNat cs with
      | none => none
      | some n => if n < 2 ^ 63 then some (n : Int) else none

/-- The `impl TryFrom<&str> for Operand` (checker.rs line 76). -/
def parse_operand (s : String) : Except String Operand :=
  let cs := s.toList
  match parse_array_index cs with
  | some (array, index) =>
      if is_identifier array then
        match parse_usize index with
        | some value => .ok (.ArrayConstIndex (String.mk array) value)
        | none =>
            if is_identifier index then
              .ok (.ArrayVarIndex (String.mk array) (String.mk index))
            else
              .error ("cannot parse index \x27" ++ compress (String.mk index) ++
                "\x27, should be integer or identifier")
      else
        .error ("invalid identifier \x27" ++ compress (String.mk array) ++
          "\x27, should contain only letters, numbers, and \x27_\x27, " ++
          "and cannot begin with a number")
  | none =>
      match parse_i64 cs with
      | some value => .ok (.Constant value)
      | none =>
          if is_identifier cs then .ok (.Variable s)
          else
            .error ("cannot parse operand \x27" ++ compress s ++
              "\x27, should be one of: integer, identifier, " ++
              "identifier[integer], identifier[identifier]")

/-- The `str::split_whitespace`: maximal runs of non-whitespace characters.
The accumulator holds the current token, reversed. -/
def splitWSAux : List Char → List Char → List String
  | [], acc => if acc = [] then [] else [String.mk acc.reverse]
  | c :: rest, acc =>
    if c.isWhitespace then
      if acc = [] then splitWSAux rest []
      else String.mk acc.reverse :: splitWSAux rest []
    else splitWSAux rest (c :: acc)

/-- The token list of a source line. -/
def split_whitespace (s : String) : List String := splitWSAux s.toList []

/-- The `impl TryFrom<&str> for Instruction` (checker.rs line 124): match the
token list against the closed set of keyword templates; the `*slaps` arm
carries the guard that its last token ends with `*`, and a failed guard
falls through to the catch-all like the Rust `match`. -/
def parse_instruction (line : String) : Except String Instruction :=
  match split_whitespace line with
  | [] => .ok .Nop
  | ["yoink", dst] =>
      match parse_operand dst with
      | .error e => .error e
      | .ok d => .ok (.Input d)
  | ["yeet", src] =>
      match parse_operand src with
      | .error e => .error e
      | .ok s => .ok (.Output s)
  | ["bruh", dst, "is", "lowkey", "just", src] =>
      match parse_operand dst with
      | .error e => .error e
      | .ok d =>
          match parse_operand src with
          | .error e => .error e
          | .ok s => .ok (.Assign d s)
  | ["*slaps", src, "on", "top", "of", dst] =>
      if dst.endsWith "*" then
        match parse_operand (dst.dropRight 1) with
        | .error e => .error e
        | .ok d =>
            match parse_operand src with
            | .error e => .error e
            | .ok s => .ok (.Add d s)
      else .error ("unknown expression: \x27" ++ compress line ++ "\x27")
  | ["rip", "this", dst, "fell", "off", "by", src] =>
      match parse_operand dst with
      | .error e => .error e
      | .ok d =>
          match parse_operand src with
          | .error e => .error e
          | .ok s => .ok (.Sub d s)
  | ["vibe", "check", dst, "ratios", src] =>
      match parse_operand dst with
      | .error e => .error e
      | .ok d =>
          match parse_operand src with
          | .error e => .error e
          | .ok s => .ok (.Compare d s)
  | ["simp", "for", src] =>
      match parse_operand src with
      | .error e => .error e
      | .ok s => .ok (.Jump s)
  | ["go", "touch", "some", "grass"] => .ok .Return
  | _ => .error ("unknown expression: \x27" ++ compress line ++ "\x27")

/-- Whether one character list occurs contiguously inside another,
the `str::find` substring probe. -/
def isSubList (needle : List Char) : List Char → Bool
  | [] => needle = []
  | x :: xs => needle.isPrefixOf (x :: xs) || isSubList needle xs

/-- The `line.to_lowercase().find("based").is_some()` (checker.rs line 155);
the lowering is ASCII `Char.toLower`, which agrees with Rust
`to_lowercase` on every character relevant to the `based` probe. -/
def contains_based (line : String) : Bool :=
  isSubList "based".toList (line.toList.map Char.toLower)

/-- The `INSTRUCTION_BASE_COST` (checker.rs line 151). -/
def INSTRUCTION_BASE_COST : Nat := 5

/-- The loop body of `Program::compile`, with the 0-based number of the
next line and the program accumulated so far. -/
def compileAux : Nat → List String → Program → Except Verdict Program
  | _, [], prog => .ok prog
  | lineno, line :: rest, prog =>
    if contains_based line then .error .Based
    else
      match parse_instruction line with
      | .ok instruction =>
          compileAux (lineno + 1) rest
            { prog with
              instructions := prog.instructions ++ [instruction],
              costs := prog.costs ++ [line.utf8ByteSize + INSTRUCTION_BASE_COST] }
      | .error message => .error (.CompileError lineno message)

/-- The `Program::compile` (checker.rs line 152): process the lines in order
starting from the default (empty) program; `line.len()` is the byte length
of the line, modelled by `String.utf8ByteSize`. -/
def compile (lines : List String) : Except Verdict Program :=
  compileAux 0 lines emptyProgram

/-- The `Pcg128` (checker.rs line 351): both fields are u128 values, kept
below 2 ^ 128 by the operations. -/
structure Pcg128 where
  state : Nat
  increment : Nat
deriving DecidableEq

/-- The `Pcg128::MULTIPLIER` (checker.rs line 357). -/
def MULTIPLIER : Nat := 0x2360ed051fc65da44385df649fccf645

/-- The `Pcg128::new` (checker.rs line 358): `increment = (stream << 1) | 1`
on u128. -/
def Pcg128.new (state stream : Nat) : Pcg128 :=
  { state := state % 2 ^ 128, increment := (stream * 2 % 2 ^ 128) ||| 1 }

/-- The `u64::rotate_right`, whose shift amount is taken modulo 64. -/
def rotateRight64 (x r : Nat) : Nat :=
  let r := r % 64
  (x >>> r ||| x <<< (64 - r)) % 2 ^ 64

/-- The `Pcg128::mix` (checker.rs line 362), the XSH-RR output mix. -/
def Pcg128.mix (state : Nat) : Nat :=
  let rot := state >>> 122
  let xsh := (state >>> 64) % 2 ^ 64 ^^^ state % 2 ^ 64
  rotateRight64 xsh rot

/-- The `Pcg128::next` (checker.rs line 369): advance the wrapping 128-bit
linear-congruential state and mix out a u64 word. -/
def Pcg128.next (g : Pcg128) : Nat × Pcg128 :=
  let s := (g.state * MULTIPLIER + g.increment) % 2 ^ 128
  (Pcg128.mix s, { state := s, increment := g.increment })

/-- The `Pcg128::next_signed` (checker.rs line 376): the next word as i64,
arithmetically shifted right by `64 - bits`. -/
def Pcg128.next_signed (g : Pcg128) (bits : Nat) : Int × Pcg128 :=
  let r := g.next
  (asr (toSigned64 r.1) (64 - bits), r.2)

/-- The initial generator of a judging session (checker.rs line 462). -/
def judgeRng : Pcg128 := Pcg128.new 0xcafef00dd15ea5e5 0xa02bdbf7bb3c0a7ac28fa16a64abf96

/-- The `Vec::resize_with(n, || rng.next_signed(60))` (checker.rs line 447):
draw `n` signed 60-bit values in order, threading the generator. -/
def drawList : Nat → Pcg128 → List Int × Pcg128
  | 0, g => ([], g)
  | n + 1, g =>
    let r := g.next_signed 60
    let rest := drawList n r.2
    (r.1 :: rest.1, rest.2)

/-- The `Task::run_and_check` (checker.rs line 383), generic over the task's
`prepare_test_case`: prepare the input queue, execute under the time
limit propagating any failure verdict, then pop one output and judge it.
The generator threaded through `prepare` is returned alongside the
verdict (Rust mutates it through `&mut`); `none` reports fuel exhaustion
of the modelled loop. -/
def run_and_check (prepare : Program → Pcg128 → Int × Program × Pcg128)
    (fuel time_limit : Nat) (p : Program) (g : Pcg128) :
    Option (Verdict × Pcg128) :=
  let r := prepare p g
  match execute fuel time_limit r.2.1 with
  | none => none
  | some (.error v) => some (v, r.2.2)
  | some (.ok q) =>
      match q.output with
      | [] => some (.WrongAnswer "print something", r.2.2)
      | .Array _ :: _ => some (.WrongAnswer "U PRINTERD AN ENTRIE ARRAY???", r.2.2)
      | .Integer x :: rest =>
          if rest ≠ [] then some (.WrongAnswer "too much stuff printed", r.2.2)
          else if x ≠ r.1 then some (.WrongAnswer "git gud", r.2.2)
          else some (.Correct, r.2.2)

/-- The `Task4::prepare_test_case` (checker.rs line 443): draw
`k = next() as usize % n + 1`, then an array of `n` signed 60-bit values;
push inputs `[n, array, k]`; the expected answer is what
`select_nth_unstable(n - k)` selects, i.e. the element at index `n - k`
of the array sorted ascending. -/
def prepare_test_case_4 (n : Nat) (p : Program) (g : Pcg128) :
    Int × Program × Pcg128 :=
  let r := g.next
  let k := r.1 % n + 1
  let ag := drawList n r.2
  let a := ag.1
  let answer := (List.insertionSort (fun x y : Int => x ≤ y) a).getD (n - k) 0
  let p1 := add_input p (.Integer (n : Int))
  let p2 := add_input p1 (.Array a)
  let p3 := add_input p2 (.Integer (k : Int))
  (answer, p3, ag.2)

/-- The `k`-th largest element of a list: the element at index `k - 1`
after sorting in descending order (the reverse of ascending order). -/
def kthLargest (a : List Int) (k : Nat) : Int :=
  (List.insertionSort (fun x y : Int => x ≤ y) a).reverse.getD (k - 1) 0

/-- The time limit of every Task 4 trial (checker.rs line 491). -/
def task4TimeLimit : Nat := 2500000

/-- The array sizes of the Task 4 trials in judging order (checker.rs
lines 489-490): for each `n` in `1..=50`, `25 / n + 1` consecutive
trials of size `n`. -/
def task4Schedule : List Nat :=
  (List.range 50).flatMap (fun i => List.replicate (25 / (i + 1) + 1) (i + 1))

/-- The trial loop of the judge for Task 4: run the scheduled trials on a
fresh clone of the compiled program, short-circuiting on the first
non-`Correct` verdict. -/
def runTrials (fuel : Nat) (prog : Program) : List Nat → Pcg128 → Option (Verdict × Pcg128)
  | [], g => some (.Correct, g)
  | n :: rest, g =>
    match run_and_check (prepare_test_case_4 n) fuel task4TimeLimit prog g with
    | none => none
    | some (.Correct, g1) => runTrials fuel prog rest g1
    | some (v, g1) => some (v, g1)

/-- The Task 4 arm of `judge` (checker.rs line 488). -/
def judgeTask4 (fuel : Nat) (prog : Program) (g : Pcg128) : Option (Verdict × Pcg128) :=
  runTrials fuel prog task4Schedule g

instance {ε α : Type} [DecidableEq ε] [DecidableEq α] : DecidableEq (Except ε α) :=
  fun x y =>
    match x, y with
    | .ok a, .ok b =>
        if h : a = b then isTrue (h ▸ rfl)
        else isFalse (fun c => h (Except.ok.inj c))
    | .error a, .error b =>
        if h : a = b then isTrue (h ▸ rfl)
        else isFalse (fun c => h (Except.error.inj c))
    | .ok _, .error _ => isFalse (fun c => nomatch c)
    | .error _, .ok _ => isFalse (fun c => nomatch c)

/-! ## Concrete programs and preparations used by the witnesses -/

/-- A one-instruction program comparing the constants 1 and 2. -/
def c1prog : Program :=
  { emptyProgram with
    instructions := [.Compare (.Constant 1) (.Constant 2)], costs := [26] }

/-- A program about to add 1 to a variable holding `i64::MAX`. -/
def c2addProg : Program :=
  { emptyProgram with
    instructions := [.Add (.Variable "a") (.Constant 1)], costs := [10],
    vars := [("a", .Integer (2 ^ 63 - 1))] }

/-- A program about to subtract 1 from a variable holding `i64::MIN`. -/
def c2subProg : Program :=
  { emptyProgram with
    instructions := [.Sub (.Variable "a") (.Constant 1)], costs := [10],
    vars := [("a", .Integer (-(2 ^ 63)))] }

/-- C3 (counterexample): the claimed invariant `pc ≤ instructions.length`
at every fetch boundary fails on the compiled one-line program
`vibe check 0 ratios 0`: since 0 > 0 is false, the compare skip sets
`pc = 2` while the program has length 1, and the subsequent fetch at that
reachable boundary is the out-of-range runtime error. -/
def c3prog : Program :=
  { emptyProgram with
    instructions := [.Compare (.Constant 0) (.Constant 0)], costs := [26] }

/-- The state one step after `c3prog`: at a fetch boundary with `pc = 2`
while only one instruction exists. -/
def c3mid : Program := { c3prog with runtime := 26, pc := 2 }

/-- The environment of the C8 witness: a three-element array and two
candidate index variables, one negative and one past the end. -/
def c8vars : VarMap :=
  [("a", .Array [10, 20, 30]), ("i", .Integer (-1)), ("j", .Integer 3)]

/-- A terminated state whose runtime is far beyond any budget. -/
def c10ret : Program := { emptyProgram with returned := true, runtime := 1000 }

/-- A one-line self-loop (`simp for 1`) that must exhaust any budget. -/
def c10loop : Program :=
  { emptyProgram with instructions := [.Jump (.Constant 1)], costs := [15] }

/-- A task preparation that queues no input and expects the answer 5. -/
def prepExpect5 (p : Program) (g : Pcg128) : Int × Program × Pcg128 := (5, p, g)

/-- A task preparation that queues no input and expects the answer 7. -/
def prepExpect7 (p : Program) (g : Pcg128) : Int × Program × Pcg128 := (7, p, g)

/-- A program printing the constant 5 and returning. -/
def c5print : Program :=
  { emptyProgram with
    instructions := [.Output (.Constant 5), .Return], costs := [11, 24] }

/-- The terminal state of `c5print`. -/
def c5printFinal : Program :=
  { c5print with output := [.Integer 5], runtime := 35, pc := 2, returned := true }

/-- A program that returns immediately without printing. -/
def c5silent : Program :=
  { emptyProgram with instructions := [.Return], costs := [24] }

/-- The terminal state of `c5silent`. -/
def c5silentFinal : Program := { c5silent with runtime := 24, pc := 1, returned := true }

/-! ## Claim theorems -/



/-- C9: For every token string embedded in a parse error message, the
embedded form equals the token itself when its length in characters is at
most 32, and otherwise equals the first 29 characters of the token
followed by "...". -/
theorem C9_compress_embeds_tokens (s : String) :
    compress s = if s.toList.length ≤ 32 then s
      else String.mk (s.toList.take 29) ++ "..." := by
  unfold compress
  by_cases h : s.toList.length ≤ 32
  · rw [if_pos, if_pos h]
    · rw [List.take_of_length_le (by omega)]
      cases s
      rfl
    · rw [List.length_take]
      omega
  · rw [if_neg, if_neg h]
    · rw [List.take_take]
      norm_num
    · rw [List.length_take]
      omega

/-- C1: For every program state and every `Compare(a, b)` instruction
executed at `cur_pc`: both operands are evaluated as reads; if not
(`a > b`) the next program counter is `cur_pc + 2` (skipping the
following instruction), and if `a > b` the program counter falls through
to `cur_pc + 1`. -/
theorem C1_compare_skip (p : Program) (a b : Operand) (x y : Int)
    (hfetch : p.instructions.get? p.pc = some (.Compare a b))
    (ha : get_value p.vars p.pc a = .ok x)
    (hb : get_value p.vars p.pc b = .ok y) :
    execute_one p = .ok { p with
      runtime := satAdd p.runtime (p.costs.getD p.pc 0),
      pc := if x > y then p.pc + 1 else p.pc + 2 } := by
  simp only [execute_one, hfetch, ha, hb]

/-- Witness for C1: since 1 > 2 fails, the compare instruction at line 0
sets the program counter to 2. -/
theorem C1_compare_skip_witness :
    execute_one c1prog = .ok { c1prog with
      runtime := 26
      pc := 2 } := by
  have h := C1_compare_skip c1prog (.Constant 1) (.Constant 2) 1 2 rfl rfl rfl
  rw [h]
  decide

/-- C2: For every execution of `Add(dst, src)` and `Sub(dst, src)` on any
pair of 64-bit integer values, the destination receives its current value
plus (respectively minus) the read value of `src` computed with
two's-complement 64-bit wrapping arithmetic; in particular the step never
fails or aborts on operand values whose sum or difference exceeds the
signed 64-bit range. -/
theorem C2_add_sub_wrapping (p : Program) (dst src : Operand) (b : Int)
    (vars1 : VarMap) (r : Ref)
    (hsrc : get_value p.vars p.pc src = .ok b)
    (hdst : get_reference_mut p.vars p.pc dst = .ok (vars1, r)) :
    (p.instructions.get? p.pc = some (.Add dst src) →
      execute_one p = .ok { p with
        runtime := satAdd p.runtime (p.costs.getD p.pc 0),
        vars := write_ref vars1 r (wrap64 (read_ref vars1 r + b)),
        pc := p.pc + 1 }) ∧
    (p.instructions.get? p.pc = some (.Sub dst src) →
      execute_one p = .ok { p with
        runtime := satAdd p.runtime (p.costs.getD p.pc 0),
        vars := write_ref vars1 r (wrap64 (read_ref vars1 r - b)),
        pc := p.pc + 1 }) := by
  constructor <;> intro hfetch <;> simp only [execute_one, hfetch, hsrc, hdst]

/-- Witness for C2: adding 1 to `i64::MAX` succeeds and wraps to
`i64::MIN`; subtracting 1 from `i64::MIN` succeeds and wraps to
`i64::MAX`. -/
theorem C2_add_sub_wrapping_witness :
    execute_one c2addProg = .ok { c2addProg with
      runtime := 10
      vars := [("a", .Integer (-(2 ^ 63))), ("a", .Integer (2 ^ 63 - 1))]
      pc := 1 } ∧
    execute_one c2subProg = .ok { c2subProg with
      runtime := 10
      vars := [("a", .Integer (2 ^ 63 - 1)), ("a", .Integer (-(2 ^ 63)))]
      pc := 1 } := by
  constructor
  · have h := (C2_add_sub_wrapping c2addProg (.Variable "a") (.Constant 1) 1
      c2addProg.vars (.var "a") rfl rfl).1 rfl
    rw [h]
    decide
  · have h := (C2_add_sub_wrapping c2subProg (.Variable "a") (.Constant 1) 1
      c2subProg.vars (.var "a") rfl rfl).2 rfl
    rw [h]
    decide

/-- C3 is false as stated: a reachable fetch boundary carries
`pc = 2 > 1 = instructions.length`. -/
theorem C3_pc_bound_counterexample :
    compile ["vibe check 0 ratios 0"] = .ok c3prog ∧
    execute_one c3prog = .ok c3mid ∧
    c3mid.pc = 2 ∧
    c3mid.instructions.length = 1 ∧
    ¬ c3mid.pc ≤ c3mid.instructions.length ∧
    execute_one c3mid = .error (.RuntimeError 2 "that\x27s not even a line") := by
  refine ⟨by decide, by decide, rfl, rfl, by decide, by decide⟩

/-- C3 (amended): the program counter is a non-negative (unsigned) index,
and any fetch with `pc ≥ instructions.length` — in particular
`pc = instructions.length` — is the runtime error "that's not even a
line"; but `pc ≤ instructions.length` need not hold at every reachable
fetch boundary, since a compare-skip at the last line (or a jump) can set
`pc` past the length. -/
theorem C3_fetch_past_end_is_error (p : Program)
    (h : p.instructions.length ≤ p.pc) :
    execute_one p = .error (.RuntimeError p.pc "that\x27s not even a line") := by
  simp only [execute_one, List.get?_eq_none.mpr h]

/-- Witness for the amended C3: fetching at `pc == length` on the empty
program is the out-of-range runtime error. -/
theorem C3_fetch_past_end_is_error_witness :
    execute_one emptyProgram =
      .error (.RuntimeError emptyProgram.pc "that\x27s not even a line") :=
  C3_fetch_past_end_is_error emptyProgram (Nat.le_refl 0)

/-- The shape of a successful `compileAux` run: it appends exactly one
instruction and one cost per line and touches nothing else. -/
theorem compileAux_ok_shape (lines : List String) :
    ∀ (n : Nat) (acc prog : Program), compileAux n lines acc = .ok prog →
      ∃ insts : List Instruction, insts.length = lines.length ∧
        prog = { acc with
          instructions := acc.instructions ++ insts
          costs := acc.costs ++
            lines.map (fun l => l.utf8ByteSize + INSTRUCTION_BASE_COST) } := by
  induction lines with
  | nil =>
    intro n acc prog h
    refine ⟨[], rfl, ?_⟩
    simp only [compileAux] at h
    cases h
    simp
  | cons line rest ih =>
    intro n acc prog h
    simp only [compileAux] at h
    by_cases hb : contains_based line
    · rw [if_pos hb] at h
      cases h
    · rw [if_neg hb] at h
      cases hp : parse_instruction line with
      | ok inst =>
          rw [hp] at h
          obtain ⟨insts, hlen, hshape⟩ := ih (n + 1) _ _ h
          refine ⟨inst :: insts, by simp [hlen], ?_⟩
          rw [hshape]
          simp
      | error msg =>
          rw [hp] at h
          cases h

/-- C7: For every source of L lines on which compilation succeeds, the
resulting program has `instructions.length == costs.length == L`,
`costs[i] == byte_length(line_i) + 5` for every `0 ≤ i < L`, an empty
environment and empty input/output queues, and `pc = 0`. -/
theorem C7_compile_shape (lines : List String) (prog : Program)
    (h : compile lines = .ok prog) :
    prog.instructions.length = lines.length ∧
    prog.costs.length = lines.length ∧
    (∀ i, prog.costs.get? i = (lines.get? i).map (fun l => l.utf8ByteSize + 5)) ∧
    prog.vars = [] ∧ prog.input = [] ∧ prog.output = [] ∧ prog.pc = 0 := by
  obtain ⟨insts, hlen, hshape⟩ := compileAux_ok_shape lines 0 emptyProgram prog h
  subst hshape
  refine ⟨by simpa [emptyProgram] using hlen, by simp [emptyProgram], ?_, rfl, rfl, rfl, rfl⟩
  intro i
  simp [emptyProgram, List.get?_map, INSTRUCTION_BASE_COST]

/-- Witness for C7: the compiled two-line program `yoink a` /
`go touch some grass` has two instructions, costs 12 and 24, and a fresh
execution state. -/
theorem C7_compile_shape_witness :
    (match compile ["yoink a", "go touch some grass"] with
      | .ok prog =>
          prog.instructions.length = 2 ∧
          prog.costs.length = 2 ∧
          (∀ i, prog.costs.get? i =
            (["yoink a", "go touch some grass"].get? i).map
              (fun l => l.utf8ByteSize + 5)) ∧
          prog.vars = [] ∧ prog.input = [] ∧ prog.output = [] ∧ prog.pc = 0
      | .error _ => False) := by
  have h : compile ["yoink a", "go touch some grass"] =
      .ok { emptyProgram with
        instructions := [.Input (.Variable "a"), .Return]
        costs := [12, 24] } := by decide
  rw [h]
  exact C7_compile_shape _ _ h

/-- The fate of `compileAux` at the first offending line: a `based` probe
hit returns `Based` at once, and otherwise a parse failure reports the
0-based line number of the offending line. -/
theorem compileAux_first_offender (line : String) (rest : List String) :
    ∀ (pre : List String) (n : Nat) (acc : Program),
      (∀ l ∈ pre, contains_based l = false ∧ ∃ i, parse_instruction l = .ok i) →
      (contains_based line = true →
        compileAux n (pre ++ line :: rest) acc = .error .Based) ∧
      (∀ msg, contains_based line = false → parse_instruction line = .error msg →
        compileAux n (pre ++ line :: rest) acc =
          .error (.CompileError (n + pre.length) msg)) := by
  intro pre
  induction pre with
  | nil =>
    intro n acc _
    constructor
    · intro hb
      simp [compileAux, hb]
    · intro msg hb hp
      simp [compileAux, hb, hp]
  | cons l pre1 ih =>
    intro n acc hpre
    obtain ⟨hbl, i, hil⟩ := hpre l (List.mem_cons_self l pre1)
    have hpre1 : ∀ x ∈ pre1, contains_based x = false ∧
        ∃ j, parse_instruction x = .ok j :=
      fun x hx => hpre x (List.mem_cons_of_mem l hx)
    constructor
    · intro hb
      simp only [List.cons_append, compileAux, hbl, Bool.false_eq_true,
        if_false, hil]
      exact (ih (n + 1) _ hpre1).1 hb
    · intro msg hb hp
      simp only [List.cons_append, compileAux, hbl, Bool.false_eq_true,
        if_false, hil]
      have h2 := (ih (n + 1)
        { acc with
          instructions := acc.instructions ++ [i]
          costs := acc.costs ++ [l.utf8ByteSize + INSTRUCTION_BASE_COST] }
        hpre1).2 msg hb hp
      have hn : n + 1 + pre1.length = n + (l :: pre1).length := by
        simp only [List.length_cons]
        omega
      rw [hn] at h2
      exact h2

/-- C4: compilation processes lines in order, 0-based: if a lowercase
rendering of a line contains the substring "based", compilation
immediately returns the `Based` verdict, superseding all checks on that
line and the remaining lines; consequently a parse failure on an earlier
line yields `CompileError(lineno, message)` even when a later line
contains "based", and a line containing "based" yields `Based` even when
that same line would not parse. -/
theorem C4_based_ordering (pre : List String) (line : String) (rest : List String)
    (hpre : ∀ l ∈ pre, contains_based l = false ∧ ∃ i, parse_instruction l = .ok i) :
    (contains_based line = true →
      compile (pre ++ line :: rest) = .error .Based) ∧
    (∀ msg, contains_based line = false → parse_instruction line = .error msg →
      compile (pre ++ line :: rest) = .error (.CompileError pre.length msg)) := by
  have h := compileAux_first_offender line rest pre 0 emptyProgram hpre
  simpa [compile] using h

/-- Witness for C4: with a well-formed first line, the unparsable second
line `jesse what` produces `CompileError` at line 1 even though line 2
contains `based`; and an unparsable line containing `BASED` produces the
`Based` verdict, not a parse error. -/
theorem C4_based_ordering_witness :
    compile ["yoink a", "jesse what", "this is based"] =
      .error (.CompileError 1 "unknown expression: \x27jesse what\x27") ∧
    compile ["yoink a", "absolutely BASED ???"] = .error .Based := by
  constructor
  · exact (C4_based_ordering ["yoink a"] "jesse what" ["this is based"]
      (by intro l hl; simp at hl; subst hl
          exact ⟨by decide, .Input (.Variable "a"), by decide⟩)).2
      "unknown expression: \x27jesse what\x27" (by decide) (by decide)
  · exact (C4_based_ordering ["yoink a"] "absolutely BASED ???" []
      (by intro l hl; simp at hl; subst hl
          exact ⟨by decide, .Input (.Variable "a"), by decide⟩)).1 (by decide)

/-- C8: For every operand evaluation of `ArrayVarIndex(a, i)` where the
index variable `i` holds a negative integer, the value is cast
two's-complement to an unsigned word, the bounds check fails, and
evaluation returns a `RuntimeError` whose message is
"index k out of bounds" — it never panics or reads out of bounds; the
same holds for any index greater than or equal to the array length.
The hypothesis `arr.length ≤ 2 ^ 63` is the Rust guarantee that a `Vec`
never holds more than `isize::MAX` elements. -/
theorem C8_negative_index_fails (vars : VarMap) (pc : Nat) (a i : String)
    (arr : List Int) (v : Int)
    (hi : lookupVar vars i = some (.Integer v))
    (ha : lookupVar vars a = some (.Array arr))
    (hv : -(2 ^ 63) ≤ v ∧ v < 2 ^ 63)
    (hlen : arr.length ≤ 2 ^ 63) :
    (v < 0 →
      i64ToUsize v = (v + 2 ^ 64).toNat ∧
      2 ^ 63 ≤ i64ToUsize v ∧
      get_value vars pc (.ArrayVarIndex a i) =
        .error (.RuntimeError pc
          ("index " ++ toString (i64ToUsize v) ++ " out of bounds")) ∧
      get_reference_mut vars pc (.ArrayVarIndex a i) =
        .error (.RuntimeError pc
          ("index " ++ toString (i64ToUsize v) ++ " out of bounds"))) ∧
    (0 ≤ v → arr.length ≤ i64ToUsize v →
      get_value vars pc (.ArrayVarIndex a i) =
        .error (.RuntimeError pc
          ("index " ++ toString (i64ToUsize v) ++ " out of bounds")) ∧
      get_reference_mut vars pc (.ArrayVarIndex a i) =
        .error (.RuntimeError pc
          ("index " ++ toString (i64ToUsize v) ++ " out of bounds"))) := by
  have hmod : ∀ w : Int, -(2 ^ 63) ≤ w → w < 2 ^ 63 →
      i64ToUsize w = if w < 0 then (w + 2 ^ 64).toNat else w.toNat := by
    intro w h1 h2
    unfold i64ToUsize
    by_cases hw : w < 0
    · rw [if_pos hw]
      have : w % (2 ^ 64 : Int) = w + 2 ^ 64 := by omega
      rw [this]
    · rw [if_neg hw]
      have : w % (2 ^ 64 : Int) = w := by omega
      rw [this]
  constructor
  · intro hneg
    have h1 : i64ToUsize v = (v + 2 ^ 64).toNat := by
      rw [hmod v hv.1 hv.2, if_pos hneg]
    have h2 : 2 ^ 63 ≤ i64ToUsize v := by
      rw [h1]
      omega
    have hout : arr.get? (i64ToUsize v) = none :=
      List.get?_eq_none.mpr (by omega)
    refine ⟨h1, h2, ?_, ?_⟩
    · simp only [get_value, get_int_mut, hi, get_arr_mut, ha, hout]
    · simp only [get_reference_mut, get_int_mut, hi, get_arr_mut, ha]
      rw [if_neg (by omega)]
  · intro hpos hge
    have hout : arr.get? (i64ToUsize v) = none := List.get?_eq_none.mpr hge
    constructor
    · simp only [get_value, get_int_mut, hi, get_arr_mut, ha, hout]
    · simp only [get_reference_mut, get_int_mut, hi, get_arr_mut, ha]
      rw [if_neg (by omega)]

/-- Witness for C8: reading `a[i]` with `i = -1` fails with the bounds
message for the enormous cast index 2^64 - 1, and reading `a[j]` with
`j = 3` on the length-3 array fails with "index 3 out of bounds". -/
theorem C8_negative_index_fails_witness :
    (get_value c8vars 4 (.ArrayVarIndex "a" "i") =
      .error (.RuntimeError 4
        ("index " ++ toString (i64ToUsize (-1)) ++ " out of bounds"))) ∧
    (get_value c8vars 4 (.ArrayVarIndex "a" "j") =
      .error (.RuntimeError 4
        ("index " ++ toString (i64ToUsize 3) ++ " out of bounds"))) := by
  constructor
  · exact ((C8_negative_index_fails c8vars 4 "a" "i" [10, 20, 30] (-1)
      (by decide) (by decide) (by constructor <;> decide) (by decide)).1
      (by decide)).2.2.1
  · exact ((C8_negative_index_fails c8vars 4 "a" "j" [10, 20, 30] 3
      (by decide) (by decide) (by constructor <;> decide) (by decide)).2
      (by decide) (by decide)).1

/-- Every failure of `get_int_mut` is a `RuntimeError` citing `pc`. -/
theorem get_int_mut_error_shape (vars : VarMap) (pc : Nat) (n : String)
    (v : Verdict) (h : get_int_mut vars pc n = .error v) :
    ∃ m, v = .RuntimeError pc m := by
  unfold get_int_mut at h
  split at h
  · exact absurd h (by simp)
  · exact ⟨_, (Except.error.inj h).symm⟩
  · exact ⟨_, (Except.error.inj h).symm⟩

/-- Every failure of `get_arr_mut` is a `RuntimeError` citing `pc`. -/
theorem get_arr_mut_error_shape (vars : VarMap) (pc : Nat) (n : String)
    (v : Verdict) (h : get_arr_mut vars pc n = .error v) :
    ∃ m, v = .RuntimeError pc m := by
  unfold get_arr_mut at h
  split at h
  · exact absurd h (by simp)
  · exact ⟨_, (Except.error.inj h).symm⟩
  · exact ⟨_, (Except.error.inj h).symm⟩

/-- Every failure of operand read evaluation is a `RuntimeError`
citing `pc`. -/
theorem get_value_error_shape (vars : VarMap) (pc : Nat) (op : Operand)
    (v : Verdict) (h : get_value vars pc op = .error v) :
    ∃ m, v = .RuntimeError pc m := by
  unfold get_value at h
  simp only [] at h
  split at h
  · exact absurd h (by simp)
  · exact get_int_mut_error_shape _ _ _ _ h
  · split at h
    · cases Except.error.inj h
      exact get_arr_mut_error_shape _ _ _ _ (by assumption)
    · split at h
      · exact absurd h (by simp)
      · exact ⟨_, (Except.error.inj h).symm⟩
  · split at h
    · cases Except.error.inj h
      exact get_int_mut_error_shape _ _ _ _ (by assumption)
    · split at h
      · cases Except.error.inj h
        exact get_arr_mut_error_shape _ _ _ _ (by assumption)
      · split at h
        · exact absurd h (by simp)
        · exact ⟨_, (Except.error.inj h).symm⟩

/-- Every failure of place resolution is a `RuntimeError` citing `pc`. -/
theorem get_reference_mut_error_shape (vars : VarMap) (pc : Nat) (op : Operand)
    (v : Verdict) (h : get_reference_mut vars pc op = .error v) :
    ∃ m, v = .RuntimeError pc m := by
  unfold get_reference_mut at h
  simp only [] at h
  split at h
  · exact ⟨_, (Except.error.inj h).symm⟩
  · split at h
    · exact absurd h (by simp)
    · exact ⟨_, (Except.error.inj h).symm⟩
    · exact absurd h (by simp)
  · split at h
    · cases Except.error.inj h
      exact get_arr_mut_error_shape _ _ _ _ (by assumption)
    · split at h
      · exact absurd h (by simp)
      · exact ⟨_, (Except.error.inj h).symm⟩
  · split at h
    · cases Except.error.inj h
      exact get_int_mut_error_shape _ _ _ _ (by assumption)
    · split at h
      · cases Except.error.inj h
        exact get_arr_mut_error_shape _ _ _ _ (by assumption)
      · split at h
        · exact absurd h (by simp)
        · exact ⟨_, (Except.error.inj h).symm⟩

/-- Every failure of a single interpreter step is a `RuntimeError`
citing the current program counter; in particular a step never returns
`TimeLimitExceeded` by itself. -/
theorem execute_one_error_shape (p : Program) (v : Verdict)
    (h : execute_one p = .error v) : ∃ m, v = .RuntimeError p.pc m := by
  unfold execute_one at h
  simp only [] at h
  split at h
  · exact ⟨_, (Except.error.inj h).symm⟩
  · split at h
    · exact absurd h (by simp)
    · split at h
      · split at h
        · exact ⟨_, (Except.error.inj h).symm⟩
        · exact absurd h (by simp)
      · exact ⟨_, (Except.error.inj h).symm⟩
    · split at h
      · split at h
        · exact ⟨_, (Except.error.inj h).symm⟩
        · exact absurd h (by simp)
      · split at h
        · cases Except.error.inj h
          exact get_value_error_shape _ _ _ _ (by assumption)
        · exact absurd h (by simp)
    · split at h
      · cases Except.error.inj h
        exact get_value_error_shape _ _ _ _ (by assumption)
      · split at h
        · cases Except.error.inj h
          exact get_reference_mut_error_shape _ _ _ _ (by assumption)
        · exact absurd h (by simp)
    · split at h
      · cases Except.error.inj h
        exact get_value_error_shape _ _ _ _ (by assumption)
      · split at h
        · cases Except.error.inj h
          exact get_reference_mut_error_shape _ _ _ _ (by assumption)
        · exact absurd h (by simp)
    · split at h
      · cases Except.error.inj h
        exact get_value_error_shape _ _ _ _ (by assumption)
      · split at h
        · cases Except.error.inj h
          exact get_reference_mut_error_shape _ _ _ _ (by assumption)
        · exact absurd h (by simp)
    · split at h
      · cases Except.error.inj h
        exact get_value_error_shape _ _ _ _ (by assumption)
      · split at h
        · cases Except.error.inj h
          exact get_value_error_shape _ _ _ _ (by assumption)
        · exact absurd h (by simp)
    · split at h
      · exact absurd h (by simp)
      · exact ⟨_, (Except.error.inj h).symm⟩
    · exact absurd h (by simp)

/-- C10: the execution loop checks the `returned` flag before the budget,
so if the flag is set, `execute` returns `Ok` even when the accumulated
runtime already exceeds the time limit; `TimeLimitExceeded` is returned
only when some reachable state has `returned` still false and
`runtime > time_limit` before a step. -/
theorem C10_returned_before_budget (time_limit fuel : Nat) (p : Program) :
    (p.returned = true → 1 ≤ fuel →
      execute fuel time_limit p = some (.ok p)) ∧
    (execute fuel time_limit p = some (.error .TimeLimitExceeded) →
      ∃ q, Steps p q ∧ q.returned = false ∧ time_limit < q.runtime) := by
  constructor
  · intro hr hf
    match fuel, hf with
    | f + 1, _ => simp [execute, hr]
  · induction fuel generalizing p with
    | zero => intro h; simp [execute] at h
    | succ f ih =>
      intro h
      unfold execute at h
      by_cases hr : p.returned
      · rw [if_pos hr] at h
        exact absurd h (by simp)
      · rw [if_neg hr] at h
        by_cases ht : p.runtime > time_limit
        · exact ⟨p, Steps.refl p, by simpa using hr, ht⟩
        · rw [if_neg ht] at h
          cases he : execute_one p with
          | error w =>
              rw [he] at h
              have hw : w = .TimeLimitExceeded := by simpa using h
              obtain ⟨m, hm⟩ := execute_one_error_shape p w he
              rw [hw] at hm
              cases hm
          | ok p1 =>
              rw [he] at h
              obtain ⟨q, hs, hq⟩ := ih p1 h
              exact ⟨q, Steps.head he hs, hq⟩

/-- Witness for C10: a returned state with runtime 1000 exits `Ok` under
time limit 5, and a `TimeLimitExceeded` run of the self-loop under limit
10 exhibits a reachable non-returned state over budget. -/
theorem C10_returned_before_budget_witness :
    execute 1 5 c10ret = some (.ok c10ret) ∧
    ∃ q, Steps c10loop q ∧ q.returned = false ∧ 10 < q.runtime := by
  constructor
  · exact (C10_returned_before_budget 5 1 c10ret).1 rfl (by decide)
  · exact (C10_returned_before_budget 10 2 c10loop).2 (by decide)

/-- C5: For every compiled program, every task, and every rng state:
after `prepare` and a successful execution under the time limit,
`run_and_check` pops one output and returns `WrongAnswer("print
something")` when the output queue is empty; `WrongAnswer("U PRINTERD AN
ENTRIE ARRAY???")` when the first output is an array; `WrongAnswer("too
much stuff printed")` when the first output is an integer and more output
follows; `Correct` when the sole output is an integer equal to the
expected answer; and `WrongAnswer("git gud")` otherwise — and any
interpreter failure verdict is propagated verbatim instead. -/
theorem C5_run_and_check_judging
    (prepare : Program → Pcg128 → Int × Program × Pcg128)
    (fuel time_limit : Nat) (p : Program) (g : Pcg128) :
    (∀ v, execute fuel time_limit (prepare p g).2.1 = some (.error v) →
      run_and_check prepare fuel time_limit p g = some (v, (prepare p g).2.2)) ∧
    (∀ q, execute fuel time_limit (prepare p g).2.1 = some (.ok q) →
      (q.output = [] →
        run_and_check prepare fuel time_limit p g =
          some (.WrongAnswer "print something", (prepare p g).2.2)) ∧
      (∀ arr rest, q.output = .Array arr :: rest →
        run_and_check prepare fuel time_limit p g =
          some (.WrongAnswer "U PRINTERD AN ENTRIE ARRAY???", (prepare p g).2.2)) ∧
      (∀ x rest, q.output = .Integer x :: rest → rest ≠ [] →
        run_and_check prepare fuel time_limit p g =
          some (.WrongAnswer "too much stuff printed", (prepare p g).2.2)) ∧
      (∀ x, q.output = [.Integer x] → x ≠ (prepare p g).1 →
        run_and_check prepare fuel time_limit p g =
          some (.WrongAnswer "git gud", (prepare p g).2.2)) ∧
      (∀ x, q.output = [.Integer x] → x = (prepare p g).1 →
        run_and_check prepare fuel time_limit p g =
          some (.Correct, (prepare p g).2.2))) := by
  constructor
  · intro v hexec
    simp only [run_and_check, hexec]
  · intro q hexec
    refine ⟨?_, ?_, ?_, ?_, ?_⟩
    · intro hout
      simp only [run_and_check, hexec, hout]
    · intro arr rest hout
      simp only [run_and_check, hexec, hout]
    · intro x rest hout hrest
      simp only [run_and_check, hexec, hout]
      rw [if_pos hrest]
    · intro x hout hx
      simp only [run_and_check, hexec, hout]
      rw [if_neg (by simp), if_pos hx]
    · intro x hout hx
      simp only [run_and_check, hexec, hout]
      rw [if_neg (by simp), if_neg (by simpa using hx)]

/-- Witness for C5: the printer of 5 is `Correct` when 5 is expected and
`git gud` when 7 is expected; the silent program is told to print
something; the empty program's fetch failure is propagated verbatim. -/
theorem C5_run_and_check_judging_witness :
    run_and_check prepExpect5 9 1000 c5print judgeRng = some (.Correct, judgeRng) ∧
    run_and_check prepExpect7 9 1000 c5print judgeRng =
      some (.WrongAnswer "git gud", judgeRng) ∧
    run_and_check prepExpect5 9 1000 c5silent judgeRng =
      some (.WrongAnswer "print something", judgeRng) ∧
    run_and_check prepExpect5 9 1000 emptyProgram judgeRng =
      some (.RuntimeError 0 "that\x27s not even a line", judgeRng) := by
  refine ⟨?_, ?_, ?_, ?_⟩
  · exact ((C5_run_and_check_judging prepExpect5 9 1000 c5print judgeRng).2
      c5printFinal (by decide)).2.2.2.2 5 (by decide) (by decide)
  · exact ((C5_run_and_check_judging prepExpect7 9 1000 c5print judgeRng).2
      c5printFinal (by decide)).2.2.2.1 5 (by decide) (by decide)
  · exact ((C5_run_and_check_judging prepExpect5 9 1000 c5silent judgeRng).2
      c5silentFinal (by decide)).1 (by decide)
  · exact (C5_run_and_check_judging prepExpect5 9 1000 emptyProgram judgeRng).1
      (.RuntimeError 0 "that\x27s not even a line") (by decide)

/-- The `drawList` produces exactly the requested number of draws. -/
theorem drawList_length (n : Nat) : ∀ g : Pcg128, (drawList n g).1.length = n := by
  induction n with
  | zero => intro g; rfl
  | succ m ih =>
      intro g
      simp only [drawList, List.length_cons, ih]

set_option maxRecDepth 40000 in
/-- Each size `1 ≤ n ≤ 50` occurs exactly `25 / n + 1` times in the Task 4
trial schedule. -/
theorem task4Schedule_count_aux :
    ∀ m, m < 50 → task4Schedule.count (m + 1) = 25 / (m + 1) + 1 := by decide

/-- In a list of length at least `k ≥ 1`, the element at position `k - 1`
from the back is the element at position `length - k` from the front. -/
theorem reverse_getD (l : List Int) (k : Nat) (h1 : 1 ≤ k) (hk : k ≤ l.length) :
    l.reverse.getD (k - 1) 0 = l.getD (l.length - k) 0 := by
  have hidx : l.length - 1 - (k - 1) = l.length - k := by omega
  rw [List.getD_eq_get?, List.getD_eq_get?, List.get?_reverse (by omega), hidx]

/-- C6: For Task 4 and every `n` in `1..=50`, the judge performs exactly
`(25 / n) + 1` trials (integer division) at time limit 2 500 000; each
trial draws `k = (next unsigned 64-bit word mod n) + 1`, draws an array
of `n` signed 60-bit integers, pushes inputs in the order
`[n, array, k]`, and the expected answer is the `k`-th largest element,
i.e. the element at index `n - k` of the array sorted ascending. -/
theorem C6_task4_battery (n : Nat) (p : Program) (g : Pcg128)
    (h1 : 1 ≤ n) (h50 : n ≤ 50) :
    task4Schedule.count n = 25 / n + 1 ∧
    task4TimeLimit = 2500000 ∧
    (drawList n g.next.2).1.length = n ∧
    (prepare_test_case_4 n p g).2.2 = (drawList n g.next.2).2 ∧
    (prepare_test_case_4 n p g).2.1.input =
      p.input ++ [.Integer (n : Int),
        .Array (drawList n g.next.2).1,
        .Integer ((g.next.1 % n + 1 : Nat) : Int)] ∧
    (prepare_test_case_4 n p g).1 =
      (List.insertionSort (fun x y : Int => x ≤ y) (drawList n g.next.2).1).getD
        (n - (g.next.1 % n + 1)) 0 ∧
    (prepare_test_case_4 n p g).1 =
      kthLargest (drawList n g.next.2).1 (g.next.1 % n + 1) := by
  have hcount : task4Schedule.count n = 25 / n + 1 := by
    have h := task4Schedule_count_aux (n - 1) (by omega)
    have hn : n - 1 + 1 = n := by omega
    rw [hn] at h
    exact h
  have hlen : (drawList n g.next.2).1.length = n := drawList_length n g.next.2
  have hkth : (prepare_test_case_4 n p g).1 =
      kthLargest (drawList n g.next.2).1 (g.next.1 % n + 1) := by
    have hk : g.next.1 % n + 1 ≤ n := by
      have := Nat.mod_lt g.next.1 (show 0 < n by omega)
      omega
    have hsortlen :
        (List.insertionSort (fun x y : Int => x ≤ y) (drawList n g.next.2).1).length
          = n := by
      rw [List.length_insertionSort]
      exact hlen
    unfold kthLargest
    rw [reverse_getD _ _ (by omega) (by omega), hsortlen]
    rfl
  refine ⟨hcount, rfl, hlen, rfl, ?_, rfl, hkth⟩
  simp [prepare_test_case_4, add_input, List.append_assoc]

/-- Witness for C6: at `n = 3` from the session seed, the first word
selects `k = 1`, three signed 60-bit values are drawn, the inputs are
queued as `[3, array, 1]`, and the expected answer is the largest drawn
value. -/
theorem C6_task4_battery_witness :
    task4Schedule.count 3 = 25 / 3 + 1 ∧
    (prepare_test_case_4 3 emptyProgram judgeRng).2.1.input =
      [.Integer 3,
       .Array (drawList 3 judgeRng.next.2).1,
       .Integer ((judgeRng.next.1 % 3 + 1 : Nat) : Int)] ∧
    (prepare_test_case_4 3 emptyProgram judgeRng).1 =
      kthLargest (drawList 3 judgeRng.next.2).1 (judgeRng.next.1 % 3 + 1) := by
  have h := C6_task4_battery 3 emptyProgram judgeRng (by decide) (by decide)
  exact ⟨h.1, by simpa using h.2.2.2.2.1, h.2.2.2.2.2.2⟩

end Checker
